import Mathlib

/-!
Verification of the workflow-release-registry specification.

The repository ships a demo driver (src/example_usage.py) that exercises a
`WorkflowRegistry` class from a `workflow_registry` module. That module is not
part of the available sources, so every registry operation below is modelled
from the specification text (spec.md), faithful to its words, and checked
against the behaviour the demo driver relies on.
-/

namespace WorkflowRegistry

/-- Modelled from the spec: a semantic version identifier composed of three
non-negative integers (major, minor, patch). The workflow_registry module is
missing from the sources; the data model follows spec section 3. -/
structure Version where
  major : Nat
  minor : Nat
  patch : Nat
deriving DecidableEq

/-- Modelled from the spec: comparison of versions is lexicographic on
(major, minor, patch). -/
def Version.lt (a b : Version) : Bool :=
  Nat.blt a.major b.major ||
    (a.major == b.major && (Nat.blt a.minor b.minor ||
      (a.minor == b.minor && Nat.blt a.patch b.patch)))

/-- Modelled from the spec: configuration values are a closed tagged union of
JSON-compatible scalars. The float alternative is omitted from the embedding
(no claim exercises it and floating-point equality is outside the shallow
embedding); string, integer and boolean cover every value the spec and the
demo driver use. -/
inductive Value where
  | str : String → Value
  | int : Int → Value
  | bool : Bool → Value
deriving DecidableEq

/-- A snapshot: a mapping from configuration key to scalar value, embedded as
an association list (Python dict keys are unique; see noDupKeys). -/
abbrev Snapshot : Type := List (String × Value)

/-- First-match association-list lookup, the embedding of dict access. -/
def assocFind {α β : Type} [DecidableEq α] (k : α) : List (α × β) → Option β
  | [] => none
  | kv :: rest => if kv.1 = k then some kv.2 else assocFind k rest

/-- Keys of an association list are pairwise distinct (always true of a
Python dict). -/
def noDupKeys {α β : Type} [DecidableEq α] : List (α × β) → Bool
  | [] => true
  | kv :: rest => (assocFind kv.1 rest).isNone && noDupKeys rest

/-- Modelled from the spec: an ordered history of (Version, Snapshot) pairs
for one workflow name. -/
abbrev History : Type := List (Version × Snapshot)

/-- Modelled from the spec: the registry maps workflow names to histories. -/
abbrev Registry : Type := List (String × History)

/-- Modelled from the spec: the diff result, three mappings added / removed /
changed, the changed entries carrying an (old, new) pair. -/
structure Diff where
  added : Snapshot
  removed : Snapshot
  changed : List (String × Value × Value)
deriving DecidableEq

/-- Modelled from the spec: keys in snapshot B absent from snapshot A, with
the value from B. -/
def diffAdded (a b : Snapshot) : Snapshot :=
  b.filter (fun kv => (assocFind kv.1 a).isNone)

/-- Modelled from the spec: keys in snapshot A absent from snapshot B, with
the value from A. -/
def diffRemoved (a b : Snapshot) : Snapshot :=
  a.filter (fun kv => (assocFind kv.1 b).isNone)

/-- Modelled from the spec: keys present in both snapshots with unequal
values, each carrying the A-value and the B-value. -/
def diffChanged (a b : Snapshot) : List (String × Value × Value) :=
  a.filterMap (fun kv =>
    match assocFind kv.1 b with
    | some vb => if kv.2 = vb then none else some (kv.1, kv.2, vb)
    | none => none)

/-- The structural diff of two snapshots. -/
def diffSnap (a b : Snapshot) : Diff :=
  ⟨diffAdded a b, diffRemoved a b, diffChanged a b⟩

/-- Split a character list at every dot, keeping empty components. -/
def splitDots : List Char → List (List Char)
  | [] => [[]]
  | c :: cs =>
    if c = '.' then [] :: splitDots cs
    else
      match splitDots cs with
      | [] => [[c]]
      | p :: rest => (c :: p) :: rest

/-- Parse a nonempty all-digit component as a non-negative integer. -/
def parseNat (cs : List Char) : Option Nat :=
  if cs = [] then none
  else if cs.all (fun c => c.isDigit) then
    some (cs.foldl (fun acc c => acc * 10 + (c.toNat - 48)) 0)
  else none

/-- Modelled from the spec: a version string parses exactly when it consists
of three dot-separated non-negative integers. -/
def parseVersion (s : String) : Option Version :=
  match (splitDots s.data).map parseNat with
  | [some a, some b, some c] => some ⟨a, b, c⟩
  | _ => none

/-- Modelled from the spec, section 7: the error kinds publish can raise. -/
inductive PubErr where
  | invalidVersion
  | nonMonotonic
deriving DecidableEq

/-- Modelled from the spec, section 7: the error kind diff_env can raise;
workflow-unknown and version-unknown both surface as this lookup failure. -/
inductive DiffErr where
  | notFound
deriving DecidableEq

deriving instance DecidableEq for Except

/-- Replace the history stored under a name (the entry is known to exist). -/
def setHistory (r : Registry) (name : String) (h : History) : Registry :=
  r.map (fun e => if e.1 = name then (e.1, h) else e)

/-- Modelled from the spec, section 4.1: publish parses the version, creates a
fresh single-entry history for an unknown workflow, otherwise appends only
when the new version strictly exceeds the current latest; on any failure the
registry is returned unchanged (publish is atomic). State-passing embedding
of the mutating Python method: the pair is (new registry state, error). -/
def publish (r : Registry) (name vs : String) (cfg : Snapshot) :
    Registry × Option PubErr :=
  match parseVersion vs with
  | none => (r, some PubErr.invalidVersion)
  | some v =>
    match assocFind name r with
    | none => (r ++ [(name, [(v, cfg)])], none)
    | some hist =>
      match hist.getLast? with
      | none => (setHistory r name [(v, cfg)], none)
      | some last =>
        if Version.lt last.1 v then
          (setHistory r name (hist ++ [(v, cfg)]), none)
        else (r, some PubErr.nonMonotonic)

/-- Modelled from the spec, section 4.1: get_latest returns the snapshot of
the last history entry, or the absent marker (none) for an unknown or empty
workflow; it never raises. -/
def get_latest (r : Registry) (name : String) : Option Snapshot :=
  match assocFind name r with
  | none => none
  | some hist => Option.map Prod.snd hist.getLast?

/-- Locate the snapshot stored for a version string by exact version match. -/
def findSnap (hist : History) (vs : String) : Option Snapshot :=
  match parseVersion vs with
  | none => none
  | some v => assocFind v hist

/-- Modelled from the spec, sections 4.1 and 6: diff_env locates both
snapshots by exact version match in the named workflow history and returns
the structural diff; an unknown workflow or a version with no exact match is
the single lookup-failure error kind. -/
def diff_env (r : Registry) (name va vb : String) : Except DiffErr Diff :=
  match assocFind name r with
  | none => Except.error DiffErr.notFound
  | some hist =>
    match findSnap hist va, findSnap hist vb with
    | some sa, some sb => Except.ok (diffSnap sa sb)
    | _, _ => Except.error DiffErr.notFound

/-- Modelled from the spec: get_latest has no side effects. State-passing
form of the read operation, returning the registry it leaves behind. -/
def get_latestS (r : Registry) (name : String) :
    Option Snapshot × Registry :=
  (get_latest r name, r)

/-- Modelled from the spec: diff_env has no side effects. State-passing form
of the read operation, returning the registry it leaves behind. -/
def diff_envS (r : Registry) (name va vb : String) :
    Except DiffErr Diff × Registry :=
  (diff_env r name va vb, r)

/-- A history is strictly increasing under Version.lt, adjacent entry by
adjacent entry. -/
def historyOk : History → Bool
  | [] => true
  | [_] => true
  | a :: b :: t => Version.lt a.1 b.1 && historyOk (b :: t)

/-- Every history in the registry is strictly increasing. -/
def registryOk (r : Registry) : Bool :=
  r.all (fun e => historyOk e.2)

/-- Every snapshot stored in the registry has pairwise-distinct keys. -/
def snapsOk (r : Registry) : Bool :=
  r.all (fun e => e.2.all (fun p => noDupKeys p.2))

/-- Modelled from the spec and the demo driver: Python exception classes that
registry errors could surface as; the driver (src/example_usage.py) catches
ValueError around both the failing publish and the failing diff_env. -/
inductive PyExc where
  | valueError
  | keyError
  | typeError
deriving DecidableEq

/-- Modelled from the demo driver: both publish error kinds surface to the
caller as ValueError (src/example_usage.py line 139 catches ValueError). -/
def PubErr.toPyExc : PubErr → PyExc
  | PubErr.invalidVersion => PyExc.valueError
  | PubErr.nonMonotonic => PyExc.valueError

/-- Modelled from the demo driver: the diff_env lookup failure surfaces to
the caller as ValueError (src/example_usage.py line 151 catches ValueError). -/
def DiffErr.toPyExc : DiffErr → PyExc
  | DiffErr.notFound => PyExc.valueError

/-- Modelled from the spec, section 7 wording: the human-readable message
attached to each publish error kind. -/
def PubErr.message : PubErr → String
  | PubErr.invalidVersion => "invalid version"
  | PubErr.nonMonotonic => "non-monotonic version"

/-- Modelled from the spec, section 7 wording: the human-readable message
attached to the diff_env error kind. -/
def DiffErr.message : DiffErr → String
  | DiffErr.notFound => "version not found"

/-- Scenario 1 snapshot for member_eligibility 1.0.0 (spec section 8). -/
def snapScen100 : Snapshot :=
  [("API_URL", Value.str "https://qa.example.com"),
   ("TIMEOUT_SECONDS", Value.int 10)]

/-- Scenario 1 snapshot for member_eligibility 1.1.0 (spec section 8). -/
def snapScen110 : Snapshot :=
  [("API_URL", Value.str "https://qa.example.com"),
   ("TIMEOUT_SECONDS", Value.int 15),
   ("CACHE_ENABLED", Value.bool true)]

/-- Registry produced by the two Scenario 1 publish calls. -/
def regScen1 : Registry :=
  (publish ((publish [] "member_eligibility" "1.0.0" snapScen100).1)
    "member_eligibility" "1.1.0" snapScen110).1

/-- The diff Scenario 1 expects for 1.0.0 → 1.1.0 (spec section 8). -/
def diffScenFwd : Diff :=
  ⟨[("CACHE_ENABLED", Value.bool true)], [],
   [("TIMEOUT_SECONDS", Value.int 10, Value.int 15)]⟩

/-- The Scenario 1 diff taken in the opposite direction, 1.1.0 → 1.0.0. -/
def diffScenBwd : Diff :=
  ⟨[], [("CACHE_ENABLED", Value.bool true)],
   [("TIMEOUT_SECONDS", Value.int 15, Value.int 10)]⟩

/-- member_eligibility 1.0.0 config from the demo driver. -/
def me100 : Snapshot :=
  [("API_URL", Value.str "https://qa.example.com"),
   ("TIMEOUT_SECONDS", Value.int 10),
   ("MAX_RETRIES", Value.int 3),
   ("DEBUG_MODE", Value.bool false)]

/-- member_eligibility 1.1.0 config from the demo driver. -/
def me110 : Snapshot :=
  [("API_URL", Value.str "https://qa.example.com"),
   ("TIMEOUT_SECONDS", Value.int 15),
   ("MAX_RETRIES", Value.int 5),
   ("DEBUG_MODE", Value.bool false),
   ("CACHE_ENABLED", Value.bool true)]

/-- member_eligibility 2.0.0 config from the demo driver. -/
def me200 : Snapshot :=
  [("API_URL", Value.str "https://prod.example.com"),
   ("TIMEOUT_SECONDS", Value.int 20),
   ("MAX_RETRIES", Value.int 5),
   ("CACHE_ENABLED", Value.bool true),
   ("FEATURE_FLAG_NEW_UI", Value.bool true)]

/-- payment_processor 1.0.0 config from the demo driver. -/
def pay100 : Snapshot :=
  [("PAYMENT_API", Value.str "https://api.stripe.com"),
   ("WEBHOOK_SECRET", Value.str "whsec_test123"),
   ("CURRENCY", Value.str "USD")]

/-- Registry after the three member_eligibility publish calls of the demo
driver (versions 1.0.0, 1.1.0, 2.0.0). -/
def regDemo3 : Registry :=
  (publish
    ((publish
      ((publish [] "member_eligibility" "1.0.0" me100).1)
      "member_eligibility" "1.1.0" me110).1)
    "member_eligibility" "2.0.0" me200).1

/-! ### Basic lemmas about the version order -/

/-- Propositional form of the lexicographic version order. -/
lemma Version.lt_iff (a b : Version) :
    Version.lt a b = true ↔
      (a.major < b.major ∨ (a.major = b.major ∧
        (a.minor < b.minor ∨ (a.minor = b.minor ∧ a.patch < b.patch)))) := by
  simp [Version.lt, Nat.blt_eq, Bool.or_eq_true, Bool.and_eq_true, beq_iff_eq]

/-- The lexicographic version order is transitive. -/
lemma Version.lt_trans {a b c : Version}
    (hab : Version.lt a b = true) (hbc : Version.lt b c = true) :
    Version.lt a c = true := by
  rw [Version.lt_iff] at hab hbc ⊢
  omega

/-! ### Association-list lemmas -/

lemma assocFind_eq_none_iff {α β : Type} [DecidableEq α] (k : α)
    (l : List (α × β)) :
    assocFind k l = none ↔ ∀ kv ∈ l, kv.1 ≠ k := by
  induction l with
  | nil => simp [assocFind]
  | cons kv t ih =>
    by_cases hk : kv.1 = k
    · simp [assocFind, hk]
    · simp [assocFind, hk, ih]

lemma assocFind_append_not_last {α β : Type} [DecidableEq α] {m k : α}
    (l : List (α × β)) (h : β) (hne : m ≠ k) :
    assocFind m (l ++ [(k, h)]) = assocFind m l := by
  have hkm : ¬ k = m := fun he => hne he.symm
  induction l with
  | nil => simp [assocFind, hkm]
  | cons kv t ih =>
    by_cases hk : kv.1 = m
    · simp [assocFind, hk]
    · simp [assocFind, hk, ih]

lemma assocFind_setHistory_ne {m name : String} (r : Registry) (h : History)
    (hne : m ≠ name) :
    assocFind m (setHistory r name h) = assocFind m r := by
  have hnm : name ≠ m := Ne.symm hne
  induction r with
  | nil => rfl
  | cons kv t ih =>
    rcases kv with ⟨k1, h1⟩
    simp only [setHistory, List.map_cons] at ih ⊢
    by_cases hk : k1 = name
    · simp [assocFind, hk, hnm, ih]
    · by_cases hm : k1 = m
      · simp [assocFind, hk, hm, hne]
      · simp [assocFind, hk, hm, ih]

lemma all_assocFind {α β : Type} [DecidableEq α] {p : α × β → Bool}
    {l : List (α × β)} {k : α} {v : β}
    (hall : l.all p = true) (hfind : assocFind k l = some v) :
    p (k, v) = true := by
  induction l with
  | nil => simp [assocFind] at hfind
  | cons kv t ih =>
    rw [List.all_cons, Bool.and_eq_true] at hall
    by_cases hk : kv.1 = k
    · simp [assocFind, hk] at hfind
      have : kv = (k, v) := by
        rcases kv with ⟨k1, v1⟩
        simp_all
      rw [this] at hall
      exact hall.1
    · simp [assocFind, hk] at hfind
      exact ih hall.2 hfind

/-! ### History invariant lemmas -/

lemma historyOk_concat {h : History} {last : Version × Snapshot}
    (hok : historyOk h = true) (hlast : h.getLast? = some last)
    {v : Version} (hlt : Version.lt last.1 v = true) (cfg : Snapshot) :
    historyOk (h ++ [(v, cfg)]) = true := by
  induction h with
  | nil => simp at hlast
  | cons a t ih =>
    cases t with
    | nil =>
      simp [List.getLast?] at hlast
      subst hlast
      simpa [historyOk] using hlt
    | cons b t2 =>
      rw [historyOk, Bool.and_eq_true] at hok
      have hlast2 : (b :: t2).getLast? = some last := by
        rw [← hlast]
        rfl
      have := ih hok.2 hlast2
      simpa [historyOk, List.cons_append] using ⟨hok.1, this⟩

lemma historyOk_last_max {h : History} {e : Version × Snapshot}
    (hok : historyOk h = true) (hlast : h.getLast? = some e) :
    ∀ x ∈ h, x = e ∨ Version.lt x.1 e.1 = true := by
  induction h with
  | nil => simp at hlast
  | cons a t ih =>
    cases t with
    | nil =>
      simp [List.getLast?] at hlast
      subst hlast
      simp
    | cons b t2 =>
      rw [historyOk, Bool.and_eq_true] at hok
      have hlast2 : (b :: t2).getLast? = some e := by
        rw [← hlast]
        rfl
      have hmax := ih hok.2 hlast2
      intro x hx
      rcases List.mem_cons.mp hx with hxa | hxt
      · subst hxa
        rcases hmax b (List.mem_cons_self b t2) with hbe | hblt
        · right
          rw [← hbe]
          exact hok.1
        · right
          exact Version.lt_trans hok.1 hblt
      · exact hmax x hxt

lemma registryOk_find {r : Registry} {name : String} {hist : History}
    (hok : registryOk r = true) (hfind : assocFind name r = some hist) :
    historyOk hist = true :=
  all_assocFind hok hfind

lemma registryOk_setHistory {r : Registry} {h : History}
    (hok : registryOk r = true) (hh : historyOk h = true) (name : String) :
    registryOk (setHistory r name h) = true := by
  induction r with
  | nil => rfl
  | cons kv t ih =>
    rw [registryOk, List.all_cons, Bool.and_eq_true] at hok
    by_cases hk : kv.1 = name
    · simp only [registryOk, setHistory, List.map_cons, hk, if_pos rfl,
        List.all_cons, Bool.and_eq_true]
      exact ⟨hh, ih hok.2⟩
    · simp only [registryOk, setHistory, List.map_cons, if_neg hk,
        List.all_cons, Bool.and_eq_true]
      exact ⟨hok.1, ih hok.2⟩

lemma registryOk_append_new {r : Registry} (hok : registryOk r = true)
    (name : String) {h : History} (hh : historyOk h = true) :
    registryOk (r ++ [(name, h)]) = true := by
  rw [registryOk, List.all_append, Bool.and_eq_true]
  exact ⟨hok, by simpa [registryOk] using hh⟩

/-! ### Diff characterization lemmas -/

lemma assocFind_filter_none {α β : Type} [DecidableEq α] {k : α}
    {l : List (α × β)} (p : α × β → Bool) (h : assocFind k l = none) :
    assocFind k (l.filter p) = none := by
  induction l with
  | nil => rfl
  | cons kv t ih =>
    by_cases hk : kv.1 = k
    · simp [assocFind, hk] at h
    · simp only [assocFind, if_neg hk] at h
      rw [List.filter_cons]
      by_cases hp : p kv
      · simp [assocFind, hk, hp, ih h]
      · simp [hp, ih h]

lemma assocFind_filter {α β : Type} [DecidableEq α] {k : α}
    {l : List (α × β)} (p : α × β → Bool) (hl : noDupKeys l = true) :
    assocFind k (l.filter p) =
      match assocFind k l with
      | some v => if p (k, v) then some v else none
      | none => none := by
  induction l with
  | nil => rfl
  | cons kv t ih =>
    rcases kv with ⟨k1, v1⟩
    rw [noDupKeys, Bool.and_eq_true, Option.isNone_iff_eq_none] at hl
    rw [List.filter_cons]
    by_cases hk : k1 = k
    · subst hk
      by_cases hp : p (k1, v1)
      · simp [assocFind, hp]
      · have hnone : assocFind k1 (List.filter p t) = none :=
          assocFind_filter_none p hl.1
        simp [assocFind, hp, hnone]
    · by_cases hp : p (k1, v1)
      · simp [assocFind, hk, hp, ih hl.2]
      · simp [assocFind, hk, hp, ih hl.2]

lemma assocFind_diffChanged_none {k : String} {a : Snapshot} (b : Snapshot)
    (h : assocFind k a = none) :
    assocFind k (diffChanged a b) = none := by
  induction a with
  | nil => rfl
  | cons kv t ih =>
    by_cases hk : kv.1 = k
    · simp [assocFind, hk] at h
    · simp only [assocFind, if_neg hk] at h
      rw [diffChanged, List.filterMap_cons]
      rcases hb : assocFind kv.1 b with _ | vb
      · simpa [diffChanged] using ih h
      · by_cases hv : kv.2 = vb
        · simpa [diffChanged, hb, hv] using ih h
        · simp only [hb, hv, ite_false]
          simpa [assocFind, hk, diffChanged] using ih h

lemma assocFind_diffChanged {k : String} {a : Snapshot} (b : Snapshot)
    (ha : noDupKeys a = true) :
    assocFind k (diffChanged a b) =
      match assocFind k a, assocFind k b with
      | some va, some vb => if va = vb then none else some (va, vb)
      | _, _ => none := by
  induction a with
  | nil =>
    rcases hkb : assocFind k b with _ | vb <;> rfl
  | cons kv t ih =>
    rcases kv with ⟨k1, v1⟩
    rw [noDupKeys, Bool.and_eq_true, Option.isNone_iff_eq_none] at ha
    rw [diffChanged, List.filterMap_cons]
    by_cases hk : k1 = k
    · subst hk
      rcases hb : assocFind k1 b with _ | vb
      · simp only [hb]
        rw [show (t.filterMap fun kv =>
            match assocFind kv.1 b with
            | some vb => if kv.2 = vb then none else some (kv.1, kv.2, vb)
            | none => none) = diffChanged t b from rfl]
        simp [assocFind, assocFind_diffChanged_none b ha.1]
      · by_cases hv : v1 = vb
        · simp only [hb, hv, ite_true]
          rw [show (t.filterMap fun kv =>
              match assocFind kv.1 b with
              | some vb => if kv.2 = vb then none else some (kv.1, kv.2, vb)
              | none => none) = diffChanged t b from rfl]
          simp [assocFind, hb, hv, assocFind_diffChanged_none b ha.1]
        · simp [assocFind, hb, hv]
    · have hstep :
          assocFind k (diffChanged t b) =
            match assocFind k t, assocFind k b with
            | some va, some vb => if va = vb then none else some (va, vb)
            | _, _ => none := ih ha.2
      rcases hb : assocFind (k1, v1).1 b with _ | vb
      · simp only [hb]
        rw [show (t.filterMap fun kv =>
            match assocFind kv.1 b with
            | some vb => if kv.2 = vb then none else some (kv.1, kv.2, vb)
            | none => none) = diffChanged t b from rfl]
        simpa [assocFind, hk] using hstep
      · by_cases hv : v1 = vb
        · simp only [hb, hv, ite_true]
          rw [show (t.filterMap fun kv =>
              match assocFind kv.1 b with
              | some vb => if kv.2 = vb then none else some (kv.1, kv.2, vb)
              | none => none) = diffChanged t b from rfl]
          simpa [assocFind, hk] using hstep
        · simp only [hb, hv, ite_false]
          rw [show (t.filterMap fun kv =>
              match assocFind kv.1 b with
              | some vb => if kv.2 = vb then none else some (kv.1, kv.2, vb)
              | none => none) = diffChanged t b from rfl]
          simpa [assocFind, hk] using hstep

lemma mem_assocFind_isSome {α β : Type} [DecidableEq α]
    {kv : α × β} {l : List (α × β)} (h : kv ∈ l) :
    (assocFind kv.1 l).isSome = true := by
  induction l with
  | nil => simp at h
  | cons a t ih =>
    rcases List.mem_cons.mp h with ha | ht
    · subst ha
      simp [assocFind]
    · by_cases hk : a.1 = kv.1
      · simp [assocFind, hk]
      · simp [assocFind, hk, ih ht]

lemma assocFind_of_mem {α β : Type} [DecidableEq α]
    {kv : α × β} {l : List (α × β)} (hl : noDupKeys l = true) (h : kv ∈ l) :
    assocFind kv.1 l = some kv.2 := by
  induction l with
  | nil => simp at h
  | cons a t ih =>
    rw [noDupKeys, Bool.and_eq_true, Option.isNone_iff_eq_none] at hl
    rcases List.mem_cons.mp h with ha | ht
    · subst ha
      simp [assocFind]
    · by_cases hk : a.1 = kv.1
      · exfalso
        have := mem_assocFind_isSome ht
        rw [← hk, hl.1] at this
        simp at this
      · simp [assocFind, hk, ih hl.2 ht]

lemma diffAdded_self (s : Snapshot) : diffAdded s s = [] := by
  rw [diffAdded, List.filter_eq_nil_iff]
  intro kv hkv
  have hsome := mem_assocFind_isSome hkv
  intro hnone
  rw [Option.isNone_iff_eq_none] at hnone
  rw [hnone] at hsome
  simp at hsome

lemma diffChanged_self {s : Snapshot} (hs : noDupKeys s = true) :
    diffChanged s s = [] := by
  rw [diffChanged, List.filterMap_eq_nil_iff]
  intro kv hkv
  rw [assocFind_of_mem hs hkv]
  simp

lemma assocFind_diffAdded {k : String} {a b : Snapshot}
    (hb : noDupKeys b = true) :
    assocFind k (diffAdded a b) =
      match assocFind k a, assocFind k b with
      | none, some v => some v
      | _, _ => none := by
  have h := assocFind_filter (k := k)
    (fun kv => (assocFind kv.1 a).isNone) hb
  unfold diffAdded
  rw [h]
  rcases hA : assocFind k a with _ | va <;>
    rcases hB : assocFind k b with _ | vb <;> simp [hA, hB]

lemma assocFind_diffRemoved {k : String} {a b : Snapshot}
    (ha : noDupKeys a = true) :
    assocFind k (diffRemoved a b) =
      match assocFind k b, assocFind k a with
      | none, some v => some v
      | _, _ => none := by
  have heq : diffRemoved a b = diffAdded b a := rfl
  rw [heq]
  exact assocFind_diffAdded ha

/-! ### diff_env inversion lemmas -/

lemma diff_env_ok_elim {r : Registry} {name va vb : String} {d : Diff}
    (h : diff_env r name va vb = Except.ok d) :
    ∃ hist sa sb, assocFind name r = some hist ∧
      findSnap hist va = some sa ∧ findSnap hist vb = some sb ∧
      d = diffSnap sa sb := by
  rcases hn : assocFind name r with _ | hist
  · simp [diff_env, hn] at h
  · rcases hva : findSnap hist va with _ | sa
    · simp [diff_env, hn, hva] at h
    · rcases hvb : findSnap hist vb with _ | sb
      · simp [diff_env, hn, hva, hvb] at h
      · simp only [diff_env, hn, hva, hvb, Except.ok.injEq] at h
        exact ⟨hist, sa, sb, rfl, hva, hvb, h.symm⟩

lemma diff_env_ok_intro {r : Registry} {name va vb : String}
    {hist : History} {sa sb : Snapshot}
    (hn : assocFind name r = some hist)
    (hva : findSnap hist va = some sa) (hvb : findSnap hist vb = some sb) :
    diff_env r name va vb = Except.ok (diffSnap sa sb) := by
  simp [diff_env, hn, hva, hvb]

lemma diff_env_error_iff (r : Registry) (name va vb : String) :
    diff_env r name va vb = Except.error DiffErr.notFound ↔
      (assocFind name r = none ∨ ∃ hist, assocFind name r = some hist ∧
        (findSnap hist va = none ∨ findSnap hist vb = none)) := by
  rcases hn : assocFind name r with _ | hist
  · simp [diff_env, hn]
  · rcases hva : findSnap hist va with _ | sa
    · simp [diff_env, hn, hva]
    · rcases hvb : findSnap hist vb with _ | sb
      · simp [diff_env, hn, hva, hvb]
      · simp [diff_env, hn, hva, hvb]

/-- A key figures in the diff result exactly when it is in one of the three
groups. -/
def diffHasKey (d : Diff) (k : String) : Bool :=
  (assocFind k d.added).isSome || (assocFind k d.removed).isSome ||
    (assocFind k d.changed).isSome

lemma diffHasKey_iff {a b : Snapshot} (ha : noDupKeys a = true)
    (hb : noDupKeys b = true) (k : String) :
    diffHasKey (diffSnap a b) k = true ↔ assocFind k a ≠ assocFind k b := by
  have hadd := assocFind_diffAdded (k := k) (a := a) (b := b) hb
  have hrem := assocFind_diffRemoved (k := k) (a := a) (b := b) ha
  have hch := assocFind_diffChanged (k := k) (a := a) b ha
  rw [diffHasKey]
  show ((assocFind k (diffAdded a b)).isSome ||
      (assocFind k (diffRemoved a b)).isSome ||
      (assocFind k (diffChanged a b)).isSome) = true ↔ _
  rw [hadd, hrem, hch]
  rcases hA : assocFind k a with _ | va <;>
    rcases hB : assocFind k b with _ | vb
  · simp
  · simp
  · simp
  · by_cases hv : va = vb <;> simp [hv]

lemma snapsOk_find {r : Registry} {name vs : String}
    {hist : History} {s : Snapshot}
    (hok : snapsOk r = true) (hn : assocFind name r = some hist)
    (hs : findSnap hist vs = some s) : noDupKeys s = true := by
  have h1 : hist.all (fun p => noDupKeys p.2) = true := all_assocFind hok hn
  rcases hp : parseVersion vs with _ | v
  · rw [findSnap, hp] at hs
    cases hs
  · rw [findSnap, hp] at hs
    exact all_assocFind h1 hs

/-! ### Claim theorems -/

/-- C5: publish fails with the InvalidVersion error kind for any version
string that does not parse into exactly three dot-separated non-negative
integers, and in that case no mutation of the registry occurs; in particular
the two-component string "1.0" fails this way. -/
theorem publish_invalid_version_rejected :
    (∀ (r : Registry) (name vs : String) (cfg : Snapshot),
      parseVersion vs = none →
      publish r name vs cfg = (r, some PubErr.invalidVersion)) ∧
    parseVersion "1.0" = none := by
  constructor
  · intro r name vs cfg hp
    simp [publish, hp]
  · decide

/-- Witness for C5: a concrete publish of the version string "1.0" reports
InvalidVersion and leaves the empty registry unchanged. -/
theorem publish_invalid_version_rejected_witness :
    publish [] "member_eligibility" "1.0" [("TEST", Value.str "value")] =
      ([], some PubErr.invalidVersion) :=
  publish_invalid_version_rejected.1 [] "member_eligibility" "1.0"
    [("TEST", Value.str "value")] (by decide)

/-- C8: get_latest and diff_env have no side effects: invoking either
operation, on success or failure, leaves the whole registry mapping (and
hence every workflow history) unchanged. -/
theorem reads_have_no_side_effects :
    ∀ (r : Registry) (name va vb : String),
      (get_latestS r name).2 = r ∧ (diff_envS r name va vb).2 = r := by
  intro r name va vb
  exact ⟨rfl, rfl⟩

/-- C10: both the non-monotonic publish failure and the diff_env lookup
failure surface to a Python caller as the same exception class, ValueError,
so the two kinds are distinguishable only by message. -/
theorem error_kinds_share_exception_class :
    PubErr.toPyExc PubErr.nonMonotonic = PyExc.valueError ∧
    DiffErr.toPyExc DiffErr.notFound = PyExc.valueError ∧
    PubErr.toPyExc PubErr.nonMonotonic = DiffErr.toPyExc DiffErr.notFound ∧
    PubErr.message PubErr.nonMonotonic ≠ DiffErr.message DiffErr.notFound := by
  refine ⟨rfl, rfl, rfl, ?_⟩
  decide

/-- C1: for every workflow the versions accepted by successful publish calls
stay strictly increasing under the lexicographic order (publishing preserves
the strictly-increasing invariant of every history); a publish whose version
is less than or equal to the current latest fails with NonMonotonicVersion;
and any failing publish leaves the registry, hence every history, exactly as
it was. -/
theorem publish_version_monotonic :
    ∀ (r : Registry) (name vs : String) (cfg : Snapshot),
      (registryOk r = true → registryOk (publish r name vs cfg).1 = true) ∧
      (∀ v hist last, parseVersion vs = some v →
        assocFind name r = some hist → hist.getLast? = some last →
        Version.lt last.1 v = false →
        publish r name vs cfg = (r, some PubErr.nonMonotonic)) ∧
      (∀ e, (publish r name vs cfg).2 = some e →
        (publish r name vs cfg).1 = r) := by
  intro r name vs cfg
  refine ⟨?_, ?_, ?_⟩
  · intro hok
    rcases hp : parseVersion vs with _ | v
    · simpa [publish, hp] using hok
    · rcases hn : assocFind name r with _ | hist
      · simp only [publish, hp, hn]
        exact registryOk_append_new hok name rfl
      · rcases hl : hist.getLast? with _ | last
        · simp only [publish, hp, hn, hl]
          exact registryOk_setHistory hok
            (show historyOk [(v, cfg)] = true from rfl) name
        · by_cases hlt : Version.lt last.1 v
          · have hhist := registryOk_find hok hn
            have hconc := historyOk_concat hhist hl hlt cfg
            simp only [publish, hp, hn, hl, hlt, if_true]
            exact registryOk_setHistory hok hconc name
          · simpa [publish, hp, hn, hl, hlt] using hok
  · intro v hist last hp hn hl hnlt
    simp [publish, hp, hn, hl, hnlt]
  · intro e he
    rcases hp : parseVersion vs with _ | v
    · simp [publish, hp]
    · rcases hn : assocFind name r with _ | hist
      · simp [publish, hp, hn] at he
      · rcases hl : hist.getLast? with _ | last
        · simp [publish, hp, hn, hl] at he
        · by_cases hlt : Version.lt last.1 v
          · simp [publish, hp, hn, hl, hlt] at he
          · simp [publish, hp, hn, hl, hlt]

/-- Witness for C1: republishing member_eligibility 1.0.0 when the latest is
2.0.0 is rejected without mutation, and publishing on top of the demo
registry preserves the strictly-increasing invariant. -/
theorem publish_version_monotonic_witness :
    publish regDemo3 "member_eligibility" "1.0.0"
        [("TEST", Value.str "value")] =
      (regDemo3, some PubErr.nonMonotonic) ∧
    registryOk (publish regDemo3 "member_eligibility" "3.0.0" me200).1 =
      true :=
  ⟨(publish_version_monotonic regDemo3 "member_eligibility" "1.0.0"
      [("TEST", Value.str "value")]).2.1 ⟨1, 0, 0⟩
      [(⟨1, 0, 0⟩, me100), (⟨1, 1, 0⟩, me110), (⟨2, 0, 0⟩, me200)]
      (⟨2, 0, 0⟩, me200) (by decide) (by decide) (by decide) (by decide),
   (publish_version_monotonic regDemo3 "member_eligibility" "3.0.0"
      me200).1 (by decide)⟩

/-- C9: monotonicity is enforced per workflow name only: a successful publish
for one name leaves every other workflow history unchanged, and a version
that is below another workflow's latest can still be published to a workflow
whose own latest it exceeds (payment_processor 1.0.0 succeeds while
member_eligibility is already at 2.0.0). -/
theorem publish_per_workflow_only :
    (∀ (r : Registry) (name vs : String) (cfg : Snapshot) (r2 : Registry)
      (m : String), publish r name vs cfg = (r2, none) → m ≠ name →
      assocFind m r2 = assocFind m r) ∧
    (publish regDemo3 "payment_processor" "1.0.0" pay100).2 = none ∧
    get_latest regDemo3 "member_eligibility" = some me200 ∧
    Version.lt ⟨1, 0, 0⟩ ⟨2, 0, 0⟩ = true ∧
    assocFind "member_eligibility"
        (publish regDemo3 "payment_processor" "1.0.0" pay100).1 =
      assocFind "member_eligibility" regDemo3 := by
  refine ⟨?_, by decide, by decide, by decide, by decide⟩
  intro r name vs cfg r2 m hpub hne
  rcases hp : parseVersion vs with _ | v
  · simp [publish, hp] at hpub
  · rcases hn : assocFind name r with _ | hist
    · simp only [publish, hp, hn, Prod.mk.injEq] at hpub
      rw [← hpub.1]
      exact assocFind_append_not_last r [(v, cfg)] hne
    · rcases hl : hist.getLast? with _ | last
      · simp only [publish, hp, hn, hl, Prod.mk.injEq] at hpub
        rw [← hpub.1]
        exact assocFind_setHistory_ne r [(v, cfg)] hne
      · by_cases hlt : Version.lt last.1 v
        · simp only [publish, hp, hn, hl, hlt, if_true, Prod.mk.injEq]
            at hpub
          rw [← hpub.1]
          exact assocFind_setHistory_ne r (hist ++ [(v, cfg)]) hne
        · simp [publish, hp, hn, hl, hlt] at hpub

/-- Witness for C9: publishing payment_processor on the demo registry leaves
the member_eligibility history lookup unchanged. -/
theorem publish_per_workflow_only_witness :
    assocFind "member_eligibility"
        (publish regDemo3 "payment_processor" "1.0.0" pay100).1 =
      assocFind "member_eligibility" regDemo3 :=
  publish_per_workflow_only.1 regDemo3 "payment_processor" "1.0.0" pay100
    (publish regDemo3 "payment_processor" "1.0.0" pay100).1
    "member_eligibility" rfl (by decide)

/-- C3: get_latest returns the snapshot of the version that compares
greatest among all published versions of the workflow (the last history
entry, which dominates every other entry under the strictly-increasing
invariant), and returns the absent marker none, without any error, when the
workflow is unknown or has an empty history. -/
theorem get_latest_returns_greatest :
    ∀ (r : Registry) (name : String), registryOk r = true →
      (assocFind name r = none → get_latest r name = none) ∧
      (assocFind name r = some [] → get_latest r name = none) ∧
      (∀ hist e, assocFind name r = some hist → hist.getLast? = some e →
        get_latest r name = some e.2 ∧
        ∀ x ∈ hist, x = e ∨ Version.lt x.1 e.1 = true) := by
  intro r name hok
  refine ⟨?_, ?_, ?_⟩
  · intro hn
    simp [get_latest, hn]
  · intro hn
    simp [get_latest, hn]
  · intro hist e hn hl
    constructor
    · simp [get_latest, hn, hl]
    · exact historyOk_last_max (registryOk_find hok hn) hl

/-- Witness for C3: on the demo registry, get_latest returns the 2.0.0
snapshot for member_eligibility, and the absent marker for an unknown
workflow. -/
theorem get_latest_returns_greatest_witness :
    get_latest regDemo3 "member_eligibility" = some me200 ∧
    get_latest regDemo3 "non_existent" = none :=
  ⟨((get_latest_returns_greatest regDemo3 "member_eligibility"
        (by decide)).2.2
      [(⟨1, 0, 0⟩, me100), (⟨1, 1, 0⟩, me110), (⟨2, 0, 0⟩, me200)]
      (⟨2, 0, 0⟩, me200) (by decide) (by decide)).1,
   (get_latest_returns_greatest regDemo3 "non_existent" (by decide)).1
     (by decide)⟩

/-- C4: diff_env fails with the NotFound error kind exactly when the named
workflow is unknown or either requested version has no exact match in the
workflow history; an unknown workflow is reported with the same (unique)
error kind as an unknown version; and on the demo registry, diffing 1.0.0
against 99.99.99 fails this way. -/
theorem diff_env_not_found_iff :
    (∀ (r : Registry) (name va vb : String),
      diff_env r name va vb = Except.error DiffErr.notFound ↔
        (assocFind name r = none ∨ ∃ hist, assocFind name r = some hist ∧
          (findSnap hist va = none ∨ findSnap hist vb = none))) ∧
    (∀ (r : Registry) (name va vb : String) (e : DiffErr),
      diff_env r name va vb = Except.error e → e = DiffErr.notFound) ∧
    diff_env regDemo3 "member_eligibility" "1.0.0" "99.99.99" =
      Except.error DiffErr.notFound := by
  refine ⟨?_, ?_, by decide⟩
  · intro r name va vb
    exact diff_env_error_iff r name va vb
  · intro r name va vb e he
    cases e
    rfl

/-- Witness for C4: the not-found characterization applied to the empty
registry and to a concrete failing diff on the demo registry. -/
theorem diff_env_not_found_iff_witness :
    diff_env [] "member_eligibility" "1.0.0" "1.1.0" =
      Except.error DiffErr.notFound ∧
    DiffErr.notFound = DiffErr.notFound :=
  ⟨(diff_env_not_found_iff.1 [] "member_eligibility" "1.0.0" "1.1.0").mpr
      (Or.inl (by decide)),
   diff_env_not_found_iff.2.1 regDemo3 "member_eligibility" "1.0.0"
     "99.99.99" DiffErr.notFound (by decide)⟩

/-- C2: for any two published versions of a workflow, diff_env returns
exactly: added = keys in snapshot B absent from A with the B-values;
removed = keys in A absent from B with the A-values; changed = keys in both
with unequal values, carrying the old and new value; keys with equal values
appear in no group. On the Scenario 1 registry, diffing 1.0.0 against 1.1.0
yields added CACHE_ENABLED=true, removed nothing, and changed
TIMEOUT_SECONDS from 10 to 15. -/
theorem diff_env_structural_diff :
    (∀ (r : Registry) (name va vb : String) (d : Diff),
      snapsOk r = true → diff_env r name va vb = Except.ok d →
      ∃ hist sa sb, assocFind name r = some hist ∧
        findSnap hist va = some sa ∧ findSnap hist vb = some sb ∧
        ∀ k : String,
          (∀ v, assocFind k d.added = some v ↔
            (assocFind k sa = none ∧ assocFind k sb = some v)) ∧
          (∀ v, assocFind k d.removed = some v ↔
            (assocFind k sb = none ∧ assocFind k sa = some v)) ∧
          (∀ vo vn, assocFind k d.changed = some (vo, vn) ↔
            (assocFind k sa = some vo ∧ assocFind k sb = some vn ∧
              vo ≠ vn)) ∧
          (∀ v, assocFind k sa = some v → assocFind k sb = some v →
            assocFind k d.added = none ∧ assocFind k d.removed = none ∧
            assocFind k d.changed = none)) ∧
    diff_env regScen1 "member_eligibility" "1.0.0" "1.1.0" =
      Except.ok diffScenFwd := by
  constructor
  · intro r name va vb d hok h
    obtain ⟨hist, sa, sb, hn, hva, hvb, hd⟩ := diff_env_ok_elim h
    have hsa := snapsOk_find hok hn hva
    have hsb := snapsOk_find hok hn hvb
    subst hd
    refine ⟨hist, sa, sb, hn, hva, hvb, ?_⟩
    intro k
    have hadd := assocFind_diffAdded (k := k) (a := sa) (b := sb) hsb
    have hrem := assocFind_diffRemoved (k := k) (a := sa) (b := sb) hsa
    have hch := assocFind_diffChanged (k := k) (a := sa) sb hsa
    refine ⟨?_, ?_, ?_, ?_⟩
    · intro v
      show assocFind k (diffAdded sa sb) = some v ↔ _
      rw [hadd]
      rcases hA : assocFind k sa with _ | va <;>
        rcases hB : assocFind k sb with _ | vb2 <;> simp
    · intro v
      show assocFind k (diffRemoved sa sb) = some v ↔ _
      rw [hrem]
      rcases hA : assocFind k sa with _ | va <;>
        rcases hB : assocFind k sb with _ | vb2 <;> simp
    · intro vo vn
      show assocFind k (diffChanged sa sb) = some (vo, vn) ↔ _
      rw [hch]
      rcases hA : assocFind k sa with _ | va <;>
        rcases hB : assocFind k sb with _ | vb2
      · simp
      · simp
      · simp
      · by_cases hv : va = vb2
        · subst hv
          show (if va = va then none else some (va, va)) = some (vo, vn) ↔
            some va = some vo ∧ some va = some vn ∧ vo ≠ vn
          rw [if_pos rfl]
          constructor
          · intro h2
            cases h2
          · rintro ⟨h1, h2, hne⟩
            exact absurd
              ((Option.some.inj h1).symm.trans (Option.some.inj h2)) hne
        · show (if va = vb2 then none else some (va, vb2)) = some (vo, vn) ↔
            some va = some vo ∧ some vb2 = some vn ∧ vo ≠ vn
          rw [if_neg hv]
          simp only [Option.some.injEq, Prod.mk.injEq]
          constructor
          · rintro ⟨h1, h2⟩
            subst h1
            subst h2
            exact ⟨rfl, rfl, hv⟩
          · rintro ⟨h1, h2, hne⟩
            exact ⟨h1, h2⟩
    · intro v hA hB
      refine ⟨?_, ?_, ?_⟩
      · show assocFind k (diffAdded sa sb) = none
        rw [hadd, hA, hB]
      · show assocFind k (diffRemoved sa sb) = none
        rw [hrem, hA, hB]
      · show assocFind k (diffChanged sa sb) = none
        rw [hch, hA, hB]
        show (if v = v then none else some (v, v)) = none
        rw [if_pos rfl]
  · decide

/-- Witness for C2: the structural characterization applied to the Scenario 1
registry and its expected 1.0.0 → 1.1.0 diff. -/
theorem diff_env_structural_diff_witness :
    ∃ hist sa sb, assocFind "member_eligibility" regScen1 = some hist ∧
      findSnap hist "1.0.0" = some sa ∧ findSnap hist "1.1.0" = some sb ∧
      ∀ k : String,
        (∀ v, assocFind k diffScenFwd.added = some v ↔
          (assocFind k sa = none ∧ assocFind k sb = some v)) ∧
        (∀ v, assocFind k diffScenFwd.removed = some v ↔
          (assocFind k sb = none ∧ assocFind k sa = some v)) ∧
        (∀ vo vn, assocFind k diffScenFwd.changed = some (vo, vn) ↔
          (assocFind k sa = some vo ∧ assocFind k sb = some vn ∧
            vo ≠ vn)) ∧
        (∀ v, assocFind k sa = some v → assocFind k sb = some v →
          assocFind k diffScenFwd.added = none ∧
          assocFind k diffScenFwd.removed = none ∧
          assocFind k diffScenFwd.changed = none) :=
  diff_env_structural_diff.1 regScen1 "member_eligibility" "1.0.0" "1.1.0"
    diffScenFwd (by decide) (by decide)

/-- C6: diff_env in opposite directions gives inverse results: added and
removed swap, each changed entry swaps its old/new pair, and the keys
figuring anywhere in the diff are the same in both directions. -/
theorem diff_env_inverse :
    ∀ (r : Registry) (name x y : String) (d1 d2 : Diff),
      snapsOk r = true →
      diff_env r name x y = Except.ok d1 →
      diff_env r name y x = Except.ok d2 →
      d1.added = d2.removed ∧ d1.removed = d2.added ∧
      (∀ k vo vn, assocFind k d1.changed = some (vo, vn) ↔
        assocFind k d2.changed = some (vn, vo)) ∧
      (∀ k, diffHasKey d1 k = true ↔ diffHasKey d2 k = true) := by
  intro r name x y d1 d2 hok h1 h2
  obtain ⟨hist, sa, sb, hn, hx, hy, hd1⟩ := diff_env_ok_elim h1
  obtain ⟨hist2, sb2, sa2, hn2, hy2, hx2, hd2⟩ := diff_env_ok_elim h2
  rw [hn] at hn2
  obtain rfl := Option.some.inj hn2
  rw [hy] at hy2
  obtain rfl := Option.some.inj hy2
  rw [hx] at hx2
  obtain rfl := Option.some.inj hx2
  have hsa := snapsOk_find hok hn hx
  have hsb := snapsOk_find hok hn hy
  subst hd1
  subst hd2
  refine ⟨rfl, rfl, ?_, ?_⟩
  · intro k vo vn
    have hch1 := assocFind_diffChanged (k := k) (a := sa) sb hsa
    have hch2 := assocFind_diffChanged (k := k) (a := sb) sa hsb
    show assocFind k (diffChanged sa sb) = some (vo, vn) ↔
      assocFind k (diffChanged sb sa) = some (vn, vo)
    rw [hch1, hch2]
    rcases hA : assocFind k sa with _ | va <;>
      rcases hB : assocFind k sb with _ | vb
    · simp
    · simp
    · simp
    · by_cases hv : va = vb
      · subst hv
        show (if va = va then none else some (va, va)) = some (vo, vn) ↔
          (if va = va then none else some (va, va)) = some (vn, vo)
        rw [if_pos rfl]
        simp
      · have hv2 : ¬ vb = va := fun h2 => hv h2.symm
        show (if va = vb then none else some (va, vb)) = some (vo, vn) ↔
          (if vb = va then none else some (vb, va)) = some (vn, vo)
        rw [if_neg hv, if_neg hv2]
        simp only [Option.some.injEq, Prod.mk.injEq]
        exact and_comm
  · intro k
    show diffHasKey (diffSnap sa sb) k = true ↔
      diffHasKey (diffSnap sb sa) k = true
    rw [diffHasKey_iff hsa hsb k, diffHasKey_iff hsb hsa k]
    exact ne_comm

/-- Witness for C6: the inverse law applied to the two directions of the
Scenario 1 diff. -/
theorem diff_env_inverse_witness :
    diffScenFwd.added = diffScenBwd.removed ∧
    diffScenFwd.removed = diffScenBwd.added ∧
    (∀ k vo vn, assocFind k diffScenFwd.changed = some (vo, vn) ↔
      assocFind k diffScenBwd.changed = some (vn, vo)) ∧
    (∀ k, diffHasKey diffScenFwd k = true ↔
      diffHasKey diffScenBwd k = true) :=
  diff_env_inverse regScen1 "member_eligibility" "1.0.0" "1.1.0"
    diffScenFwd diffScenBwd (by decide) (by decide) (by decide)

/-- C7: diffing a published version against itself yields a diff whose
added, removed and changed mappings are all empty. -/
theorem diff_env_self_empty :
    ∀ (r : Registry) (name vs : String) (hist : History) (s : Snapshot),
      snapsOk r = true → assocFind name r = some hist →
      findSnap hist vs = some s →
      diff_env r name vs vs = Except.ok ⟨[], [], []⟩ := by
  intro r name vs hist s hok hn hs
  have hnodup := snapsOk_find hok hn hs
  have h := diff_env_ok_intro hn hs hs
  rw [h]
  have hempty : diffSnap s s = ⟨[], [], []⟩ := by
    have hrem : diffRemoved s s = diffAdded s s := rfl
    unfold diffSnap
    rw [hrem, diffAdded_self, diffChanged_self hnodup]
  rw [hempty]

/-- Witness for C7: the self-diff of version 1.0.0 on the Scenario 1
registry is empty. -/
theorem diff_env_self_empty_witness :
    diff_env regScen1 "member_eligibility" "1.0.0" "1.0.0" =
      Except.ok ⟨[], [], []⟩ :=
  diff_env_self_empty regScen1 "member_eligibility" "1.0.0"
    [(⟨1, 0, 0⟩, snapScen100), (⟨1, 1, 0⟩, snapScen110)] snapScen100
    (by decide) (by decide) (by decide)

end WorkflowRegistry
